import Mathlib

/-!
# Verification of the `po` Pushover client

A shallow embedding of the `po` repository (a Pushover push-notification
client written in Rust) together with proofs about its observable behavior.

The embedding covers:

* `src/config.rs` — the credential store (`valid_token`, `read`, `write`),
  with the filesystem and JSON text serialization abstracted: the stored
  file content is modelled as a JSON AST value (the text-level JSON
  machinery comes from the external `rustc_serialize` crate), and I/O
  outcomes (open / read / create+write results) are explicit parameters.
* `src/lib.rs` — the notification dispatcher (`push`, the `gist`
  sub-operation's call sites, `api_error` and the HTTP response
  interpretation), with the two HTTP endpoints abstracted as oracles:
  `gistOutcome` gives the result of each Gist upload and `responder` the
  notification endpoint's response.
* `src/bin/po.rs` — `parse_parameters`, the CLI's translation of parsed
  arguments into a `Parameters` list.

Rust `String::len` is a UTF-8 byte count and Rust byte-range slicing
panics off a character boundary, so strings are handled through explicit
byte-length functions (`byteLenL`, `byteLen`) and a partial byte-take
(`byteTakeList`, `none` = panic). A `none` result anywhere models a Rust
panic (`unwrap` or slice failure); `some` carries the returned value.
-/

set_option autoImplicit false
set_option linter.dupNamespace false

/-- Number of bytes of the UTF-8 encoding of a character (Rust `char::len_utf8`). -/
def utf8Width (c : Char) : Nat :=
  if c.toNat < 0x80 then 1
  else if c.toNat < 0x800 then 2
  else if c.toNat < 0x10000 then 3
  else 4

/-- UTF-8 byte length of a character list. -/
def byteLenL (s : List Char) : Nat :=
  (s.map utf8Width).sum

/-- UTF-8 byte length of a string: Rust's `str::len`. -/
def byteLen (s : String) : Nat :=
  byteLenL s.data

/-- Rust byte slicing `&s[0..n]` restricted to a prefix: returns the prefix of
the character list whose UTF-8 encoding occupies exactly `n` bytes, or `none`
(a panic) when byte offset `n` is not a character boundary or is out of range. -/
def byteTakeList : Nat → List Char → Option (List Char)
  | 0, _ => some []
  | _ + 1, [] => none
  | n + 1, c :: cs =>
      if utf8Width c ≤ n + 1 then
        (byteTakeList (n + 1 - utf8Width c) cs).map (fun l => c :: l)
      else
        none

@[simp] theorem byteLenL_nil : byteLenL [] = 0 := rfl

@[simp] theorem byteLenL_cons (c : Char) (cs : List Char) :
    byteLenL (c :: cs) = utf8Width c + byteLenL cs := rfl

@[simp] theorem byteLenL_append (l₁ l₂ : List Char) :
    byteLenL (l₁ ++ l₂) = byteLenL l₁ + byteLenL l₂ := by
  simp [byteLenL]

theorem byteLenL_replicate (n : Nat) (c : Char) :
    byteLenL (List.replicate n c) = n * utf8Width c := by
  induction n with
  | zero => simp
  | succ n ih => simp [List.replicate_succ, ih, Nat.succ_mul, Nat.add_comm]

@[simp] theorem byteTakeList_zero (s : List Char) :
    byteTakeList 0 s = some [] := by
  cases s <;> simp [byteTakeList]

@[simp] theorem byteTakeList_nil_succ (n : Nat) :
    byteTakeList (n + 1) [] = none := by
  simp [byteTakeList]

theorem byteTakeList_cons_succ (n : Nat) (c : Char) (cs : List Char) :
    byteTakeList (n + 1) (c :: cs)
      = if utf8Width c ≤ n + 1 then
          (byteTakeList (n + 1 - utf8Width c) cs).map (fun l => c :: l)
        else none := by
  simp [byteTakeList]

/-- A successful byte-take returns a prefix occupying exactly the requested
number of bytes. -/
theorem byteTakeList_byteLenL (s : List Char) :
    ∀ n p, byteTakeList n s = some p → byteLenL p = n := by
  induction s with
  | nil =>
      intro n p h
      cases n with
      | zero =>
          rw [byteTakeList_zero] at h
          injection h with h
          subst h
          rfl
      | succ n =>
          rw [byteTakeList_nil_succ] at h
          cases h
  | cons c cs ih =>
      intro n p h
      cases n with
      | zero =>
          rw [byteTakeList_zero] at h
          injection h with h
          subst h
          rfl
      | succ n =>
          rw [byteTakeList_cons_succ] at h
          by_cases hw : utf8Width c ≤ n + 1
          · rw [if_pos hw] at h
            rcases hmap : byteTakeList (n + 1 - utf8Width c) cs with _ | q
            · rw [hmap] at h; cases h
            · rw [hmap] at h
              simp only [Option.map_some'] at h
              injection h with h
              subst h
              have hq := ih _ _ hmap
              simp only [byteLenL_cons, hq]
              omega
          · rw [if_neg hw] at h; cases h

/-- Byte-taking past an ASCII prefix steps through it unchanged. -/
theorem byteTakeList_replicate_ascii (rest : List Char) (m : Nat) :
    ∀ n, byteTakeList (n + m) (List.replicate n 'a' ++ rest)
      = (byteTakeList m rest).map (fun l => List.replicate n 'a' ++ l) := by
  intro n
  induction n with
  | zero =>
      simp only [List.replicate_zero, List.nil_append, Nat.zero_add]
      cases h : byteTakeList m rest <;> simp [h]
  | succ n ih =>
      have hw : utf8Width 'a' = 1 := by decide
      have harith : n + 1 + m = (n + m) + 1 := by omega
      rw [List.replicate_succ, List.cons_append, harith, byteTakeList_cons_succ, hw]
      rw [if_pos (by omega)]
      simp only [Nat.add_sub_cancel]
      rw [ih, Option.map_map]
      rfl

namespace Config

/-- `config.rs`: the two-field credential structure. -/
structure Config where
  token : String
  user : String
  deriving DecidableEq, Repr

/-- An abstract I/O error kind (Rust `std::io::Error`), distinguishing the
not-found kind from others so that open-failure behavior can be stated. -/
inductive IoErr where
  | notFound
  | permissionDenied
  | other (code : Nat)
  deriving DecidableEq, Repr

/-- `config.rs`: `ReadError`. -/
inductive ReadError where
  | NoConfig
  | JsonError
  | FileError (e : IoErr)
  | InvalidApiToken (s : String)
  | InvalidUserKey (s : String)
  deriving DecidableEq, Repr

/-- `config.rs`: `WriteError`. -/
inductive WriteError where
  | InvalidApiToken (s : String)
  | InvalidUserKey (s : String)
  | FileError (e : IoErr)
  deriving DecidableEq, Repr

/-- A character matched by the regex character class `[A-Za-z0-9]`. -/
def isAsciiAlnum (c : Char) : Bool :=
  ('A' ≤ c && c ≤ 'Z') || ('a' ≤ c && c ≤ 'z') || ('0' ≤ c && c ≤ '9')

/-- `config.rs`: `valid_token`. Rust `token.len()` is the UTF-8 byte length;
`Regex::new(r"[A-Za-z0-9]").is_match(token)` holds iff some character of the
string is ASCII alphanumeric. -/
def valid_token (token : String) : Bool :=
  byteLen token == 30 && token.data.any isAsciiAlnum

/-- A JSON value, as produced/consumed by the external `rustc_serialize`
crate (the text-level encoder/parser is outside this repository). -/
inductive Json where
  | str (s : String)
  | num (n : Int)
  | bool (b : Bool)
  | null
  | arr (elems : List Json)
  | obj (fields : List (String × Json))

/-- First value bound to a field name in a JSON object's field list. -/
def lookupField : List (String × Json) → String → Option Json
  | [], _ => none
  | (k, v) :: fs, name => if k == name then some v else lookupField fs name

/-- `rustc_serialize`'s derived `RustcEncodable` for `Config`: a two-field
JSON object. -/
def encodeConfig (c : Config) : Json :=
  .obj [("token", .str c.token), ("user", .str c.user)]

/-- `rustc_serialize`'s derived `RustcDecodable` for `Config`: reads the
`token` and `user` string fields of a JSON object by name; any other shape
fails to decode. -/
def decodeConfig : Json → Option Config
  | .obj fields =>
      match lookupField fields "token", lookupField fields "user" with
      | some (.str t), some (.str u) => some ⟨t, u⟩
      | _, _ => none
  | _ => none

/-- The observable state of the config file as `read` interacts with it:
the outcome of `File::open`, and the outcome of `read_to_string` together
with the (already JSON-parsed, see module docstring) content on success. -/
structure ConfigFile where
  openResult : Except IoErr Unit
  readResult : Except IoErr Json

/-- `config.rs`: `read`. `File::open` failure (any kind) maps to `NoConfig`;
a `read_to_string` failure maps to `FileError`; content that does not decode
into `Config` hits `json::decode(&buf).unwrap()`, a panic (`none`). -/
def read (f : ConfigFile) : Option (Except ReadError (String × String)) :=
  match f.openResult with
  | .error _ => some (.error .NoConfig)
  | .ok _ =>
      match f.readResult with
      | .error e => some (.error (.FileError e))
      | .ok content =>
          match decodeConfig content with
          | some c => some (.ok (c.token, c.user))
          | none => none

/-- `config.rs`: `write`, as a transformer of the stored file content
(`none` = file absent). `ioResult` is the combined outcome of
`File::create` + `write_all`; on success the file is overwritten with the
encoded config, on I/O failure `FileError` is returned. Validation happens
before any filesystem activity, so on a validation error the file is
returned unchanged. -/
def write (token user : String) (file : Option Json) (ioResult : Except IoErr Unit) :
    Except WriteError Unit × Option Json :=
  if !valid_token token then
    (.error (.InvalidApiToken token), file)
  else if !valid_token user then
    (.error (.InvalidUserKey user), file)
  else
    match ioResult with
    | .ok _ => (.ok (), some (encodeConfig ⟨token, user⟩))
    | .error e => (.error (.FileError e), file)

end Config

/-- `lib.rs`: the `Parameters` enum of optional Pushover message settings. -/
inductive Parameters where
  | Priority (p : Int)
  | Title (t : String)
  | Device (d : String)
  | Sound (s : String)
  | URL (u : String)
  | URLTitle (ut : String)
  | Gist
  | Debug
  deriving DecidableEq, Repr

/-- Whether a parameter is the `Gist` variant. -/
def Parameters.isGist : Parameters → Bool
  | .Gist => true
  | _ => false

/-- Outcome of one call to the `gist` sub-operation
(`gist(message, title) -> Result<String, (u32, String)>`), supplied as an
oracle since `gist` performs HTTP I/O against github.com. -/
abbrev GistOracle := String → String → Except (Nat × String) String

/-- The mutable state of `push`'s parameter-processing loop: the growing
notification key/value list, the tracked paste title, and the debug flag.
`gistCalls` additionally records each `(message, title)` argument pair passed
to `gist`, making the sub-operation's inputs observable. -/
structure PushState where
  notification : List (String × String)
  title : String
  debug : Bool
  gistCalls : List (String × String)
  deriving DecidableEq, Repr

/-- One iteration of the `for parameter in para` loop in `push`
(`lib.rs`). `Vec::push` appends at the end. For `Gist`, on `Ok(gist_url)`
the `url` and `url_title` pairs are appended; on `Err` nothing happens. -/
def processParameter (message : String) (gistOutcome : GistOracle)
    (st : PushState) : Parameters → PushState
  | .Priority p =>
      { st with notification := st.notification ++ [("priority", toString p)] }
  | .Title t =>
      { st with notification := st.notification ++ [("title", t)], title := t }
  | .Device d =>
      { st with notification := st.notification ++ [("device", d)] }
  | .Sound s =>
      { st with notification := st.notification ++ [("sound", s)] }
  | .URL u =>
      { st with notification := st.notification ++ [("url", u)] }
  | .URLTitle ut =>
      { st with notification := st.notification ++ [("url_title", ut)] }
  | .Gist =>
      { st with
        notification := st.notification ++
          (match gistOutcome message st.title with
           | .ok gist_url =>
               [("url", gist_url), ("url_title", "Full Output (GitHub Gist)")]
           | .error _ => []),
        gistCalls := st.gistCalls ++ [(message, st.title)] }
  | .Debug =>
      { st with debug := true }

/-- The truncation at the top of `push`:
`if message.len() > 1024 { message[0..1024].as_ref() } else { message }`.
`none` models the byte-slice panic when offset 1024 is not a character
boundary. -/
def truncateMsg (message : String) : Option String :=
  if byteLen message > 1024 then
    (byteTakeList 1024 message.data).map String.mk
  else
    some message

/-- `push` up to (but not including) the final HTTP POST: truncates the
message, seeds the notification list with `token`/`user`/`message`, and runs
the parameter loop starting from `title = "po"`, `debug = false`. -/
def buildPush (token user message : String) (parameters : List Parameters)
    (gistOutcome : GistOracle) : Option PushState :=
  match truncateMsg message with
  | none => none
  | some msg =>
      some (parameters.foldl (processParameter message gistOutcome)
        { notification :=
            [("token", token), ("user", user), ("message", msg)],
          title := "po",
          debug := false,
          gistCalls := [] })

/-- The HTTP outcome of the final POST to the Pushover message endpoint. -/
inductive HttpResult where
  | response (code : Nat) (body : String)
  | curlError (code : Nat)
  deriving DecidableEq, Repr

/-- Oracle for `json::decode::<MessagesJson>` applied to a response body:
`some (status, errors)` on success, `none` when the body does not decode
(the text-level JSON parser is the external `rustc_serialize` crate). -/
abbrev MessagesDecoder := String → Option (Int × List String)

/-- `lib.rs`: `api_error`. Decodes the body (the `unwrap` panics — `none` —
when it does not decode); returns `Err(errors)` when `status != 1` and
`Err(["general API error"])` otherwise. -/
def api_error (decodeMsgs : MessagesDecoder) (body : String) :
    Option (Except (List String) Unit) :=
  match decodeMsgs body with
  | none => none
  | some (status, errors) =>
      if status ≠ 1 then some (.error errors)
      else some (.error ["general API error"])

/-- The response interpretation at the end of `push`: HTTP 200 is success,
400–499 (inclusive range `400...499`) goes through `api_error`, any other
status yields `Err(["API error <n>"])`, and a curl-level failure yields
`Err(["curl error <code>"])`. -/
def interpretResponse (decodeMsgs : MessagesDecoder) :
    HttpResult → Option (Except (List String) Unit)
  | .response code body =>
      if code = 200 then some (.ok ())
      else if 400 ≤ code ∧ code ≤ 499 then api_error decodeMsgs body
      else some (.error [s!"API error {code}"])
  | .curlError code => some (.error [s!"curl error {code}"])

/-- `lib.rs`: `push`, with the notification endpoint abstracted as
`responder`, a function from the assembled key/value list to the HTTP
outcome (URL-encoding of the body is the external `url` crate). `none`
models a panic. -/
def push (token user message : String) (parameters : List Parameters)
    (gistOutcome : GistOracle) (responder : List (String × String) → HttpResult)
    (decodeMsgs : MessagesDecoder) : Option (Except (List String) Unit) :=
  match buildPush token user message parameters gistOutcome with
  | none => none
  | some st => interpretResponse decodeMsgs (responder st.notification)

/-- `bin/po.rs`: the fields of the docopt-decoded `Args` struct. -/
structure Args where
  arg_message : Option String
  arg_token : String
  arg_user : String
  flag_p : Int
  flag_title : Option String
  flag_device : Option String
  flag_sound : Option String
  flag_setup : Bool
  flag_gist : Bool
  flag_always_gist : Bool
  flag_debug : Bool
  deriving DecidableEq, Repr

/-- `bin/po.rs`: `parse_parameters`. `Priority` is pushed only when
`flag_p != 0`; then title, device, sound, `Gist` for `--always-gist`, and
`Debug`, in that order. -/
def parse_parameters (args : Args) : List Parameters :=
  (if args.flag_p ≠ 0 then [Parameters.Priority args.flag_p] else []) ++
  (match args.flag_title with
   | some title => [Parameters.Title title]
   | none => []) ++
  (match args.flag_device with
   | some device => [Parameters.Device device]
   | none => []) ++
  (match args.flag_sound with
   | some sound => [Parameters.Sound sound]
   | none => []) ++
  (if args.flag_always_gist then [Parameters.Gist] else []) ++
  (if args.flag_debug then [Parameters.Debug] else [])

/-! ## Shared concrete instances and helper lemmas -/

/-- A gist oracle on which every upload fails (as when the paste host
answers HTTP 500: `gist` then falls through to its generic error). -/
def gistFail : GistOracle :=
  fun _ _ => Except.error (0, "Generic: Couldn't post to Gist.")

/-- A responder that always answers HTTP 200 with an empty body. -/
def respond200 : List (String × String) → HttpResult :=
  fun _ => .response 200 ""

/-- A `MessagesJson` decoder that never succeeds (irrelevant for 200). -/
def decodeNone : MessagesDecoder := fun _ => none

/-- A concrete 30-character token passing `valid_token`. -/
def sampleToken : String := "aaaaaaaaaaaaaaaaaaaaaaaaaaaaaa"

/-- A concrete 30-character user key passing `valid_token`. -/
def sampleUser : String := "bbbbbbbbbbbbbbbbbbbbbbbbbbbbbb"

/-- Modelled from the spec's title-tracking rule (§4.2 step 3): each
paste-upload parameter is invoked with the full message and whichever
`Title` value was seen before it, the fallback `"po"` (passed as `cur`
at top level) if none. -/
def specGistCalls (message : String) : List Parameters → String → List (String × String)
  | [], _ => []
  | Parameters.Title t :: ps, _ => specGistCalls message ps t
  | Parameters.Gist :: ps, cur => (message, cur) :: specGistCalls message ps cur
  | _ :: ps, cur => specGistCalls message ps cur

/-- Every call recorded by `specGistCalls` passes the full message. -/
theorem specGistCalls_full_message (message : String) :
    ∀ (params : List Parameters) (cur : String),
      ∀ call ∈ specGistCalls message params cur, call.1 = message := by
  intro params
  induction params with
  | nil => intro cur call h; simp [specGistCalls] at h
  | cons p ps ih =>
      intro cur call h
      cases p <;> simp only [specGistCalls, List.mem_cons] at h
      case Gist =>
          rcases h with rfl | h
          · rfl
          · exact ih _ _ h
      all_goals exact ih _ _ h

/-- The parameter loop appends exactly the `specGistCalls` records to the
`gistCalls` field, tracking the running title. -/
theorem foldl_gistCalls (message : String) (g : GistOracle) :
    ∀ (params : List Parameters) (st : PushState),
      (params.foldl (processParameter message g) st).gistCalls
        = st.gistCalls ++ specGistCalls message params st.title := by
  intro params
  induction params with
  | nil => intro st; simp [specGistCalls]
  | cons p ps ih =>
      intro st
      cases p <;>
        simp [List.foldl_cons, processParameter, specGistCalls, ih, List.append_assoc]

/-- Each loop iteration only appends to the notification list. -/
theorem processParameter_notification (message : String) (g : GistOracle)
    (st : PushState) (p : Parameters) :
    ∃ d, (processParameter message g st p).notification = st.notification ++ d := by
  cases p <;> first
    | exact ⟨_, rfl⟩
    | exact ⟨[], (List.append_nil _).symm⟩

/-- The parameter loop only appends to the notification list. -/
theorem foldl_notification_extends (message : String) (g : GistOracle) :
    ∀ (params : List Parameters) (st : PushState),
      ∃ extra, (params.foldl (processParameter message g) st).notification
        = st.notification ++ extra := by
  intro params
  induction params with
  | nil => exact fun st => ⟨[], (List.append_nil _).symm⟩
  | cons p ps ih =>
      intro st
      obtain ⟨d, hd⟩ := processParameter_notification message g st p
      obtain ⟨extra, hextra⟩ := ih (processParameter message g st p)
      exact ⟨d ++ extra, by rw [List.foldl_cons, hextra, hd, List.append_assoc]⟩

/-- Agreement of two loop states on everything the source program tracks
(the `gistCalls` field is ghost instrumentation). -/
def PushState.Agree (st₁ st₂ : PushState) : Prop :=
  st₁.notification = st₂.notification ∧ st₁.title = st₂.title ∧ st₁.debug = st₂.debug

/-- One loop iteration preserves agreement. -/
theorem processParameter_agree (message : String) (g : GistOracle)
    (st₁ st₂ : PushState) (p : Parameters) (h : st₁.Agree st₂) :
    (processParameter message g st₁ p).Agree (processParameter message g st₂ p) := by
  obtain ⟨h1, h2, h3⟩ := h
  cases p <;> simp [processParameter, PushState.Agree, h1, h2, h3]

/-- When every gist upload for this message fails, processing the parameter
list is equivalent (up to the ghost `gistCalls` field) to processing it with
the `Gist` parameters removed. -/
theorem foldl_gistFail_filter (message : String) (g : GistOracle)
    (hfail : ∀ t, ∃ e, g message t = Except.error e) :
    ∀ (params : List Parameters) (st₁ st₂ : PushState), st₁.Agree st₂ →
      (params.foldl (processParameter message g) st₁).Agree
        (((params.filter (fun p => !p.isGist)).foldl
            (processParameter message g) st₂)) := by
  intro params
  induction params with
  | nil => intro st₁ st₂ h; simpa using h
  | cons p ps ih =>
      intro st₁ st₂ h
      cases hp : p.isGist with
      | true =>
          cases p <;> simp [Parameters.isGist] at hp
          obtain ⟨h1, h2, h3⟩ := h
          obtain ⟨e, he⟩ := hfail st₁.title
          have hstep : (processParameter message g st₁ .Gist).Agree st₂ := by
            refine ⟨?_, h2, h3⟩
            simp [processParameter, he, h1]
          have := ih _ _ hstep
          simpa [List.filter_cons, Parameters.isGist] using this
      | false =>
          have hstep := processParameter_agree message g st₁ st₂ p h
          have := ih _ _ hstep
          simpa [List.filter_cons, hp] using this

/-! ## The claims -/

/-- C1: for every string `s`, `valid_token s` is true iff `s` has (Rust
`str::len`, i.e. UTF-8 byte) length exactly 30 and contains at least one
character in `[A-Za-z0-9]`; a 30-character string of one alphanumeric
character and 29 dashes is valid, and a 29-character all-alphanumeric
string is invalid. -/
theorem claim_C1_valid_token :
    (∀ s : String, Config.valid_token s = true ↔
        byteLen s = 30 ∧ ∃ c ∈ s.data,
          ('A' ≤ c ∧ c ≤ 'Z') ∨ ('a' ≤ c ∧ c ≤ 'z') ∨ ('0' ≤ c ∧ c ≤ '9')) ∧
    Config.valid_token (String.mk ('a' :: List.replicate 29 '-')) = true ∧
    Config.valid_token (String.mk (List.replicate 29 'a')) = false := by
  refine ⟨?_, by decide, by decide⟩
  intro s
  simp [Config.valid_token, Config.isAsciiAlnum, List.any_eq_true,
    Bool.and_eq_true, Bool.or_eq_true, decide_eq_true_eq, and_assoc, or_assoc]

/-- C2 counterexample: `push` with `parameters = [Priority 0]` does include a
`priority` field (with value `"0"`), contrary to the claim that it is
omitted. -/
theorem claim_C2_priority_zero_counterexample :
    (buildPush "t" "u" "m" [Parameters.Priority 0] gistFail).map
        (fun st => st.notification)
      = some [("token", "t"), ("user", "u"), ("message", "m"),
              ("priority", "0")] := rfl

/-- C2 amended: `push` with an empty parameter list produces no `priority`
field; `push` with `[Priority p]` always appends `priority = p` (in
particular `priority=0` for `Priority 0` and `priority=2` for `Priority 2`);
the omission of the neutral priority happens in the CLI's
`parse_parameters`, which never emits a `Priority` parameter when the
priority flag is 0. -/
theorem claim_C2_priority_amended (token user : String) (g : GistOracle) :
    ((buildPush token user "m" [] g).map
        (fun st => st.notification.any (fun kv => kv.1 == "priority"))
      = some false) ∧
    (∀ p : Int, (buildPush token user "m" [Parameters.Priority p] g).map
        (fun st => st.notification)
      = some [("token", token), ("user", user), ("message", "m"),
              ("priority", toString p)]) ∧
    ((buildPush token user "m" [Parameters.Priority 2] g).map
        (fun st => st.notification)
      = some [("token", token), ("user", user), ("message", "m"),
              ("priority", "2")]) ∧
    (∀ args : Args, args.flag_p = 0 →
        ∀ q : Int, Parameters.Priority q ∉ parse_parameters args) := by
  refine ⟨rfl, fun p => rfl, rfl, ?_⟩
  intro args h q hmem
  rcases args with ⟨am, at', au, fp, ft, fd, fs, fst, fg, fag, fdbg⟩
  simp only at h
  subst h
  cases ft <;> cases fd <;> cases fs <;> cases fag <;> cases fdbg <;>
    simp_all [parse_parameters]

/-- C2 amended, witness. -/
theorem claim_C2_priority_amended_witness :
    ((buildPush "t" "u" "m" [] gistFail).map
        (fun st => st.notification.any (fun kv => kv.1 == "priority"))
      = some false) ∧
    ({ arg_message := none, arg_token := "", arg_user := "", flag_p := 0,
       flag_title := none, flag_device := none, flag_sound := none,
       flag_setup := false, flag_gist := false, flag_always_gist := false,
       flag_debug := false : Args }.flag_p = 0) ∧
    Parameters.Priority 2 ∉ parse_parameters
      { arg_message := none, arg_token := "", arg_user := "", flag_p := 0,
        flag_title := none, flag_device := none, flag_sound := none,
        flag_setup := false, flag_gist := false, flag_always_gist := false,
        flag_debug := false } :=
  ⟨(claim_C2_priority_amended "t" "u" gistFail).1, rfl,
    (claim_C2_priority_amended "t" "u" gistFail).2.2.2 _ rfl 2⟩

/-- C3: in `push`, each `Gist` parameter invokes the paste upload with the
last `Title` value processed before it, the literal `"po"` if none: the
recorded gist calls equal `specGistCalls` started from `"po"`, and in
particular `[Gist, Title X]` pastes under `"po"` while `[Title X, Gist]`
pastes under `X`. -/
theorem claim_C3_gist_title_ordering (token user message msg X : String)
    (params : List Parameters) (g : GistOracle)
    (htr : truncateMsg message = some msg) :
    (∃ st, buildPush token user message params g = some st ∧
        st.gistCalls = specGistCalls message params "po") ∧
    ((buildPush token user "m" [Parameters.Gist, Parameters.Title X] g).map
        (fun st => st.gistCalls) = some [("m", "po")]) ∧
    ((buildPush token user "m" [Parameters.Title X, Parameters.Gist] g).map
        (fun st => st.gistCalls) = some [("m", X)]) := by
  refine ⟨?_, rfl, rfl⟩
  refine ⟨List.foldl (processParameter message g)
      { notification := [("token", token), ("user", user), ("message", msg)],
        title := "po", debug := false, gistCalls := [] } params, ?_, ?_⟩
  · unfold buildPush
    rw [htr]
  · simpa using foldl_gistCalls message g params
      { notification := [("token", token), ("user", user), ("message", msg)],
        title := "po", debug := false, gistCalls := [] }

/-- C3, witness. -/
theorem claim_C3_gist_title_ordering_witness :
    truncateMsg "m" = some "m" ∧
    ∃ st, buildPush "t" "u" "m" [Parameters.Gist] gistFail = some st ∧
      st.gistCalls = specGistCalls "m" [Parameters.Gist] "po" :=
  ⟨rfl, (claim_C3_gist_title_ordering "t" "u" "m" "m" "X" [Parameters.Gist]
    gistFail rfl).1⟩

/-- The message exhibiting the C4 counterexample: 1023 one-byte characters
followed by two two-byte characters, so its byte length (1027) and character
count (1025) both exceed 1024, yet byte offset 1024 falls inside the first
'¢' and `message[0..1024]` panics. -/
def cxMessage : String := String.mk (List.replicate 1023 'a' ++ ['¢', '¢'])

/-- C4 counterexample: for `cxMessage` (longer than 1024 in both bytes and
characters), `push` panics at the byte slice instead of producing a wire
`message` field of length 1024 — the truncation is not UTF-8-safe. -/
theorem claim_C4_truncation_counterexample :
    1024 < byteLen cxMessage ∧
    1024 < cxMessage.data.length ∧
    buildPush "t" "u" cxMessage [] gistFail = none := by
  have hw : utf8Width 'a' = 1 := by decide
  have h2 : byteLenL ['¢', '¢'] = 4 := by decide
  have hlen : byteLen cxMessage = 1027 := by
    show byteLenL (List.replicate 1023 'a' ++ ['¢', '¢']) = 1027
    rw [byteLenL_append, byteLenL_replicate, hw, h2]
  have h1 : byteTakeList 1 ['¢', '¢'] = none := by decide
  have htake : byteTakeList 1024 (List.replicate 1023 'a' ++ ['¢', '¢'])
      = none := by
    have hn : (1024 : Nat) = 1023 + 1 := by norm_num
    rw [hn, byteTakeList_replicate_ascii, h1]
    rfl
  refine ⟨by omega, ?_, ?_⟩
  · show 1024 < (List.replicate 1023 'a' ++ ['¢', '¢']).length
    rw [List.length_append, List.length_replicate]
    norm_num
  · unfold buildPush truncateMsg
    have hdata : cxMessage.data = List.replicate 1023 'a' ++ ['¢', '¢'] := rfl
    rw [hlen, hdata, htake]
    norm_num

/-- C4 amended: when the message's byte length exceeds 1024 *and* byte
offset 1024 is a character boundary (`truncateMsg` succeeds), the wire
`message` field has byte length exactly 1024; when it is not a boundary the
slice panics (see the counterexample). A message of byte length at most
1024 is sent unmodified. The truncation is unconditional, and every
paste-upload call receives the full untruncated message. -/
theorem claim_C4_truncation_amended (token user message msg : String)
    (params : List Parameters) (g : GistOracle)
    (htr : truncateMsg message = some msg) :
    (1024 < byteLen message → byteLen msg = 1024) ∧
    (byteLen message ≤ 1024 → msg = message) ∧
    ∃ st, buildPush token user message params g = some st ∧
      st.notification.take 3
        = [("token", token), ("user", user), ("message", msg)] ∧
      ∀ call ∈ st.gistCalls, call.1 = message := by
  have hcase := htr
  unfold truncateMsg at hcase
  refine ⟨?_, ?_, ?_⟩
  · intro hgt
    rw [if_pos hgt] at hcase
    rcases hp : byteTakeList 1024 message.data with _ | p
    · rw [hp] at hcase; cases hcase
    · rw [hp] at hcase
      simp only [Option.map_some'] at hcase
      injection hcase with hcase
      subst hcase
      show byteLenL p = 1024
      exact byteTakeList_byteLenL _ _ _ hp
  · intro hle
    rw [if_neg (by omega)] at hcase
    injection hcase with hcase
    exact hcase.symm
  · refine ⟨List.foldl (processParameter message g)
        { notification := [("token", token), ("user", user), ("message", msg)],
          title := "po", debug := false, gistCalls := [] } params, ?_, ?_, ?_⟩
    · unfold buildPush
      rw [htr]
    · obtain ⟨extra, hextra⟩ := foldl_notification_extends message g params
        { notification := [("token", token), ("user", user), ("message", msg)],
          title := "po", debug := false, gistCalls := [] }
      rw [hextra]
      rfl
    · intro call hc
      have h := foldl_gistCalls message g params
        { notification := [("token", token), ("user", user), ("message", msg)],
          title := "po", debug := false, gistCalls := [] }
      rw [h] at hc
      simp only [List.nil_append] at hc
      exact specGistCalls_full_message message params "po" call hc

/-- The 1025-byte all-ASCII message used in the C4 witness. -/
def longMessage : String := String.mk (List.replicate 1025 'a')

/-- C4 amended, witness: the 1025-byte ASCII message is truncated to a wire
message of byte length exactly 1024. -/
theorem claim_C4_truncation_amended_witness :
    truncateMsg longMessage = some (String.mk (List.replicate 1024 'a')) ∧
    1024 < byteLen longMessage ∧
    byteLen (String.mk (List.replicate 1024 'a')) = 1024 := by
  have hw : utf8Width 'a' = 1 := by decide
  have hlen : byteLen longMessage = 1025 := by
    show byteLenL (List.replicate 1025 'a') = 1025
    rw [byteLenL_replicate, hw]
  have hsplit : (List.replicate 1025 'a' : List Char)
      = List.replicate 1024 'a' ++ ['a'] := by
    have h : (1025 : Nat) = 1024 + 1 := by norm_num
    rw [h, List.replicate_succ']
  have htake : byteTakeList 1024 longMessage.data
      = some (List.replicate 1024 'a') := by
    show byteTakeList 1024 (List.replicate 1025 'a') = _
    rw [hsplit]
    have h := byteTakeList_replicate_ascii ['a'] 0 1024
    simp only [Nat.add_zero, byteTakeList_zero, Option.map_some',
      List.append_nil] at h
    exact h
  have htr : truncateMsg longMessage = some (String.mk (List.replicate 1024 'a')) := by
    unfold truncateMsg
    rw [hlen, htake]
    norm_num
  have h := claim_C4_truncation_amended "t" "u" longMessage
      (String.mk (List.replicate 1024 'a')) [] gistFail htr
  exact ⟨htr, by rw [hlen]; norm_num, h.1 (by rw [hlen]; norm_num)⟩

/-- C5: when every paste upload for the message fails, `push` does not
abort: the assembled notification equals the one built with the `Gist`
parameters removed (so no `url`/`url_title` pair is added for them), the
notification is still submitted, and `push` returns exactly the
interpretation of the notification endpoint's response. -/
theorem claim_C5_gist_failure_nonfatal (token user message msg : String)
    (params : List Parameters) (g : GistOracle)
    (responder : List (String × String) → HttpResult)
    (decodeMsgs : MessagesDecoder)
    (htr : truncateMsg message = some msg)
    (hfail : ∀ t, ∃ e, g message t = Except.error e) :
    ∃ st st',
      buildPush token user message params g = some st ∧
      buildPush token user message (params.filter (fun p => !p.isGist)) g
        = some st' ∧
      st.notification = st'.notification ∧
      push token user message params g responder decodeMsgs
        = interpretResponse decodeMsgs (responder st.notification) := by
  have hinit : PushState.Agree
      { notification := [("token", token), ("user", user), ("message", msg)],
        title := "po", debug := false, gistCalls := ([] : List (String × String)) }
      { notification := [("token", token), ("user", user), ("message", msg)],
        title := "po", debug := false, gistCalls := [] } :=
    ⟨rfl, rfl, rfl⟩
  have hagree := foldl_gistFail_filter message g hfail params _ _ hinit
  refine ⟨_, _, ?_, ?_, hagree.1, ?_⟩
  · unfold buildPush
    rw [htr]
  · unfold buildPush
    rw [htr]
  · unfold push buildPush
    rw [htr]

/-- C5, witness. -/
theorem claim_C5_gist_failure_nonfatal_witness :
    truncateMsg "m" = some "m" ∧
    (∀ t, ∃ e, gistFail "m" t = Except.error e) ∧
    ∃ st st',
      buildPush "t" "u" "m" [Parameters.Gist] gistFail = some st ∧
      buildPush "t" "u" "m"
          ([Parameters.Gist].filter (fun p => !p.isGist)) gistFail
        = some st' ∧
      st.notification = st'.notification ∧
      push "t" "u" "m" [Parameters.Gist] gistFail respond200 decodeNone
        = interpretResponse decodeNone (respond200 st.notification) :=
  ⟨rfl, fun _ => ⟨(0, "Generic: Couldn't post to Gist."), rfl⟩,
    claim_C5_gist_failure_nonfatal "t" "u" "m" "m" [Parameters.Gist] gistFail
      respond200 decodeNone rfl
      (fun _ => ⟨(0, "Generic: Couldn't post to Gist."), rfl⟩)⟩

/-- C6: evaluation at the failing input. A config file whose content does
not decode into the two-field structure drives `read` into
`json::decode(&buf).unwrap()`, a panic (modelled by `none`) — not a
returned error value; moreover `read` can never return its own declared
`JsonError` kind. -/
theorem claim_C6_read_parse_panic :
    Config.read ⟨Except.ok (), Except.ok (Config.Json.str "garbage")⟩ = none ∧
    ∀ f : Config.ConfigFile,
      Config.read f ≠ some (Except.error Config.ReadError.JsonError) := by
  refine ⟨rfl, ?_⟩
  intro f
  rcases f with ⟨o, r⟩
  cases o with
  | error e => simp [Config.read]
  | ok u =>
      cases r with
      | error e => simp [Config.read]
      | ok j => cases hj : Config.decodeConfig j <;> simp [Config.read, hj]

/-- C7: `write` validates the token first, then the user key, before any
filesystem activity: an invalid token yields `InvalidApiToken token`
regardless of the user key, a valid token with an invalid user key yields
`InvalidUserKey user`, and in both cases the file is returned untouched. -/
theorem claim_C7_write_validation_order (token user : String)
    (file : Option Config.Json) (ioResult : Except Config.IoErr Unit) :
    (Config.valid_token token = false →
        Config.write token user file ioResult
          = (Except.error (Config.WriteError.InvalidApiToken token), file)) ∧
    (Config.valid_token token = true → Config.valid_token user = false →
        Config.write token user file ioResult
          = (Except.error (Config.WriteError.InvalidUserKey user), file)) := by
  refine ⟨fun h => ?_, fun h1 h2 => ?_⟩ <;> simp [Config.write, *]

/-- C7, witness: `write("short", user, ...)` with an invalid user key still
reports `InvalidApiToken`, and a valid token with invalid user key reports
`InvalidUserKey`; the file (absent here) is unchanged in both cases. -/
theorem claim_C7_write_validation_order_witness :
    (Config.valid_token "short" = false ∧
      Config.write "short" "x" none (Except.ok ())
        = (Except.error (Config.WriteError.InvalidApiToken "short"), none)) ∧
    (Config.valid_token sampleToken = true ∧ Config.valid_token "y" = false ∧
      Config.write sampleToken "y" none (Except.ok ())
        = (Except.error (Config.WriteError.InvalidUserKey "y"), none)) :=
  ⟨⟨by decide, (claim_C7_write_validation_order "short" "x" none
      (Except.ok ())).1 (by decide)⟩,
    ⟨by decide, by decide, (claim_C7_write_validation_order sampleToken "y" none
      (Except.ok ())).2 (by decide) (by decide)⟩⟩

/-- C8 counterexample: `read` maps *any* `File::open` failure to `NoConfig`,
so a file that exists but cannot be opened (permission denied) also yields
`NoConfig`, contradicting the claim that `NoConfig` occurs exactly when the
file does not exist and that other open failures yield `FileError`. -/
theorem claim_C8_noconfig_counterexample :
    Config.read ⟨Except.error Config.IoErr.permissionDenied,
        Except.ok Config.Json.null⟩
      = some (Except.error Config.ReadError.NoConfig) ∧
    Config.IoErr.permissionDenied ≠ Config.IoErr.notFound := by
  exact ⟨rfl, by decide⟩

/-- C8 amended: `read` fails with `NoConfig` whenever opening the file fails
for any reason (not only nonexistence), and with `FileError e` exactly when
the open succeeds but reading the contents fails with `e`. -/
theorem claim_C8_read_error_mapping (f : Config.ConfigFile) (e : Config.IoErr) :
    (f.openResult = Except.error e →
        Config.read f = some (Except.error Config.ReadError.NoConfig)) ∧
    (f.openResult = Except.ok () → f.readResult = Except.error e →
        Config.read f = some (Except.error (Config.ReadError.FileError e))) := by
  rcases f with ⟨o, r⟩
  constructor
  · intro h
    have h' : o = Except.error e := h
    subst h'
    simp [Config.read]
  · intro h1 h2
    have h1' : o = Except.ok () := h1
    have h2' : r = Except.error e := h2
    subst h1'
    subst h2'
    simp [Config.read]

/-- C8 amended, witness. -/
theorem claim_C8_read_error_mapping_witness :
    ((⟨Except.error Config.IoErr.permissionDenied, Except.ok Config.Json.null⟩ :
        Config.ConfigFile).openResult
      = Except.error Config.IoErr.permissionDenied ∧
      Config.read ⟨Except.error Config.IoErr.permissionDenied,
          Except.ok Config.Json.null⟩
        = some (Except.error Config.ReadError.NoConfig)) ∧
    (Config.read ⟨Except.ok (), Except.error (Config.IoErr.other 5)⟩
      = some (Except.error (Config.ReadError.FileError (Config.IoErr.other 5)))) :=
  ⟨⟨rfl, (claim_C8_read_error_mapping _ Config.IoErr.permissionDenied).1 rfl⟩,
    (claim_C8_read_error_mapping _ (Config.IoErr.other 5)).2 rfl rfl⟩

/-- C9: writing a token/user pair that both pass `valid_token` and then
reading the same file back returns exactly `(token, user)`. -/
theorem claim_C9_write_read_roundtrip (token user : String)
    (file : Option Config.Json)
    (h1 : Config.valid_token token = true)
    (h2 : Config.valid_token user = true) :
    Config.write token user file (Except.ok ())
      = (Except.ok (), some (Config.encodeConfig ⟨token, user⟩)) ∧
    Config.read ⟨Except.ok (), Except.ok (Config.encodeConfig ⟨token, user⟩)⟩
      = some (Except.ok (token, user)) := by
  constructor
  · simp [Config.write, h1, h2]
  · rfl

/-- C9, witness. -/
theorem claim_C9_write_read_roundtrip_witness :
    Config.valid_token sampleToken = true ∧
    Config.valid_token sampleUser = true ∧
    (Config.write sampleToken sampleUser none (Except.ok ())
      = (Except.ok (),
          some (Config.encodeConfig ⟨sampleToken, sampleUser⟩)) ∧
    Config.read ⟨Except.ok (),
        Except.ok (Config.encodeConfig ⟨sampleToken, sampleUser⟩)⟩
      = some (Except.ok (sampleToken, sampleUser))) :=
  ⟨by decide, by decide,
    claim_C9_write_read_roundtrip sampleToken sampleUser none
      (by decide) (by decide)⟩

/-- C10: `read` performs no format validation: whenever the stored content
decodes into the two-field structure, `read` returns the stored pair as-is
(no `valid_token` requirement), and `read` can never return the
`InvalidApiToken` or `InvalidUserKey` error kinds. -/
theorem claim_C10_read_no_validation (f : Config.ConfigFile) (t u : String)
    (hopen : f.openResult = Except.ok ())
    (hcontent : ∃ j, f.readResult = Except.ok j ∧
        Config.decodeConfig j = some ⟨t, u⟩) :
    Config.read f = some (Except.ok (t, u)) ∧
    ∀ (f' : Config.ConfigFile) (s : String),
      Config.read f' ≠ some (Except.error (Config.ReadError.InvalidApiToken s)) ∧
      Config.read f' ≠ some (Except.error (Config.ReadError.InvalidUserKey s)) := by
  constructor
  · obtain ⟨j, hr, hd⟩ := hcontent
    rcases f with ⟨o, r⟩
    have ho : o = Except.ok () := hopen
    have hr' : r = Except.ok j := hr
    subst ho
    subst hr'
    simp [Config.read, hd]
  · intro f' s
    rcases f' with ⟨o, r⟩
    cases o with
    | error e => simp [Config.read]
    | ok v =>
        cases r with
        | error e => simp [Config.read]
        | ok j => cases hj : Config.decodeConfig j <;> simp [Config.read, hj]

/-- C10, witness: stored strings `"x"`/`"y"` fail `valid_token` yet are
returned unchanged. -/
theorem claim_C10_read_no_validation_witness :
    Config.valid_token "x" = false ∧
    Config.valid_token "y" = false ∧
    Config.read ⟨Except.ok (),
        Except.ok (Config.Json.obj
          [("token", Config.Json.str "x"), ("user", Config.Json.str "y")])⟩
      = some (Except.ok ("x", "y")) :=
  ⟨by decide, by decide,
    (claim_C10_read_no_validation
      ⟨Except.ok (), Except.ok (Config.Json.obj
        [("token", Config.Json.str "x"), ("user", Config.Json.str "y")])⟩
      "x" "y" rfl ⟨_, rfl, rfl⟩).1⟩
